import Mathlib

/-!
# Lahelu → Fediverse bridge: verification of the core orchestration layer

Shallow embedding of `src/server.js`. The SQLite tables become lists of rows
carried in an explicit `DB` state; remote HTTP fetches become parameters that
supply the outcome the network would have produced; the `Date.now()` clock and
the configured `SYNC_TTL` become explicit arguments. Each operation returns the
updated `DB` together with flags recording the externally observable effects
(whether a remote fetch was issued, whether an insert happened, whether a
JavaScript exception propagated out of the function).
-/

namespace Bridge

/-- A row of the `users` table (`CREATE TABLE users` in server.js).
`publicKey`/`privateKey` are nullable TEXT columns holding serialized JWK
exports; `none` models SQL NULL. -/
structure UserRow where
  username : String
  userId : String
  description : String
  avatar : String
  createdAt : Int
  lastPostSync : Int
  lastCommentSync : Int
  publicKey : Option String
  privateKey : Option String
deriving Repr, DecidableEq

/-- A row of the `posts` table. `rawContent` stores the serialized content
blocks (`JSON.stringify(p.content || [])`); since `JSON.stringify` is injective
on arrays of blocks and the bridge never looks inside, we keep the block list
itself. `sensitive` is the INTEGER column holding `p.isSensitive ? 1 : 0`. -/
structure PostRow where
  postId : String
  username : String
  title : String
  rawContent : List String
  sensitive : Nat
  createdAt : Int
deriving Repr, DecidableEq

/-- The persistent store: `users`, `posts` and `followers` tables.
(The `comments` table exists in the schema but no code path touches it.)
A follower row is the pair (local username, remote actor URI), the composite
primary key of the `followers` table. -/
structure DB where
  users : List UserRow
  posts : List PostRow
  followers : List (String × String)
deriving Repr, DecidableEq

/-- `SELECT COUNT(*) FROM followers WHERE username=?` compared with 0
(function `hasFollowers` in server.js). -/
def hasFollowers (db : DB) (username : String) : Bool :=
  db.followers.countP (fun f => f.1 == username) > 0

/-- `SELECT * FROM users WHERE username=?` (`.get`, i.e. first matching row,
`undefined` when absent). -/
def usersFind (db : DB) (username : String) : Option UserRow :=
  db.users.find? (fun u => u.username == username)

/-- Plain `INSERT INTO users` — a PRIMARY KEY conflict makes better-sqlite3
throw, modelled as `none`. -/
def usersInsert (db : DB) (row : UserRow) : Option DB :=
  if (usersFind db row.username).isSome then none
  else some { db with users := db.users ++ [row] }

/-- The `userInfo` payload of `GET /api/user/get-username`.
`description`/`avatar` may be absent (the code applies `|| ""`). -/
structure RemoteUser where
  username : String
  userId : String
  description : Option String
  avatar : Option String
  createTime : Int
deriving Repr, DecidableEq

/-- Outcome of the remote user fetch in `ensureUser`: the `fetch`/`r.json()`
promise rejects (`fthrow`), the response is non-success (`notOk`, `!r.ok`), or
it succeeds with an optional `data.userInfo` payload. -/
inductive UserFetch where
  | fthrow
  | notOk
  | ok (userInfo : Option RemoteUser)
deriving Repr, DecidableEq

/-- Result of `ensureUser`: the store afterwards, the returned row (`none` for
`null`/`undefined`), whether the remote user fetch was issued, whether an
INSERT ran, and whether an exception propagated (in which case `user` is
meaningless). -/
structure EnsureOut where
  db : DB
  user : Option UserRow
  fetched : Bool
  inserted : Bool
  threw : Bool
deriving Repr, DecidableEq

/-- The row `ensureUser` inserts for a fetched payload: sync timestamps 0,
`description`/`avatar` defaulted to `""`, key columns NULL. -/
def freshUserRow (u : RemoteUser) : UserRow :=
  { username := u.username
  , userId := u.userId
  , description := u.description.getD ""
  , avatar := u.avatar.getD ""
  , createdAt := u.createTime
  , lastPostSync := 0
  , lastCommentSync := 0
  , publicKey := none
  , privateKey := none }

/-- `ensureUser(username)` from server.js: return the cached row if present;
otherwise fetch the user from the platform, and on success insert a row keyed
by the *payload's* username and re-read by the *requested* username. -/
def ensureUser (db : DB) (username : String) (remote : UserFetch) : EnsureOut :=
  match usersFind db username with
  | some user => ⟨db, some user, false, false, false⟩
  | none =>
    match remote with
    | .fthrow => ⟨db, none, true, false, true⟩
    | .notOk => ⟨db, none, true, false, false⟩
    | .ok none => ⟨db, none, true, false, false⟩
    | .ok (some u) =>
      match usersInsert db (freshUserRow u) with
      | none => ⟨db, none, true, false, true⟩
      | some db1 => ⟨db1, usersFind db1 username, true, true, false⟩

/-- One element of `data.postInfos` from
`GET /api/post/get-user-posts`. `content` may be absent (code applies
`|| []`); `isSensitive` is normalized with `? 1 : 0`. -/
structure RemotePost where
  postId : String
  title : String
  content : Option (List String)
  isSensitive : Bool
  createTime : Int
deriving Repr, DecidableEq

/-- Outcome of the remote posts fetch in `syncPosts`: promise rejection,
non-success status (`!r.ok`), or success with optional `data.postInfos`. -/
inductive PostsFetch where
  | fthrow
  | notOk
  | ok (postInfos : Option (List RemotePost))
deriving Repr, DecidableEq

/-- Result of `syncPosts`: store afterwards, whether the remote *posts* fetch
was issued, and whether an exception propagated. -/
structure SyncOut where
  db : DB
  fetched : Bool
  threw : Bool
deriving Repr, DecidableEq

/-- `INSERT OR REPLACE INTO posts VALUES (?,?,?,?,?,?)`: the conflicting row
(same `postId`) is deleted and the new row inserted. -/
def postsUpsert (posts : List PostRow) (p : PostRow) : List PostRow :=
  posts.filter (fun q => !(q.postId == p.postId)) ++ [p]

/-- The Post row written by the sync loop for payload `p`: owner is the
*requested* username, `rawContent` is the serialized `p.content || []`,
`sensitive` is `p.isSensitive ? 1 : 0`. -/
def storePost (username : String) (p : RemotePost) : PostRow :=
  { postId := p.postId
  , username := username
  , title := p.title
  , rawContent := p.content.getD []
  , sensitive := if p.isSensitive then 1 else 0
  , createdAt := p.createTime }

/-- The `for (const p of data.postInfos || [])` upsert loop of `syncPosts`:
each payload post is upserted in order. -/
def applyPosts (db : DB) (username : String) : List RemotePost → DB
  | [] => db
  | p :: ps =>
    applyPosts { db with posts := postsUpsert db.posts (storePost username p) } username ps

/-- `UPDATE users SET lastPostSync=? WHERE username=?`. -/
def setLastPostSync (db : DB) (username : String) (now : Int) : DB :=
  { db with users := db.users.map (fun u =>
      if u.username == username then { u with lastPostSync := now } else u) }

/-- `syncPosts(username)` from server.js, with `Date.now()` passed as `now`,
`SYNC_TTL` as `ttl`, and the two remote fetch outcomes as parameters.
Gates in source order: user exists, has followers, TTL elapsed; then the posts
fetch, the upsert loop, and finally the `lastPostSync` update (only on a
successful fetch). -/
def syncPosts (db : DB) (username : String) (now ttl : Int)
    (uremote : UserFetch) (premote : PostsFetch) : SyncOut :=
  let e := ensureUser db username uremote
  if e.threw then ⟨e.db, false, true⟩
  else
    match e.user with
    | none => ⟨e.db, false, false⟩
    | some user =>
      if !hasFollowers e.db username then ⟨e.db, false, false⟩
      else if now - user.lastPostSync < ttl then ⟨e.db, false, false⟩
      else
        match premote with
        | .fthrow => ⟨e.db, true, true⟩
        | .notOk => ⟨e.db, true, false⟩
        | .ok postInfos =>
          ⟨setLastPostSync (applyPosts e.db username (postInfos.getD [])) username now,
            true, false⟩

/-! ## Key-pair dispatcher

Crypto keys live in the model as the JWK export that identifies them:
`exportJwk` is the identity on this representation, `importJwk ∘ JSON.parse`
inverts `JSON.stringify ∘ exportJwk`, so a key round-trips through the TEXT
columns unchanged. A returned pair is therefore a pair of JWK strings. -/

/-- JavaScript truthiness of a nullable TEXT column: NULL and `""` are falsy
(`user.publicKey && user.privateKey`). -/
def truthy : Option String → Bool
  | none => false
  | some v => !(v == "")

/-- Result of the key-pairs dispatcher: store afterwards, the returned list of
(public, private) key pairs as JWK exports, and whether a fresh pair was
generated. -/
structure KeyPairsOut where
  db : DB
  pairs : List (String × String)
  generated : Bool
deriving Repr, DecidableEq

/-- `setKeyPairsDispatcher` body from server.js: no user row → `[]`; stored
truthy key columns → import and return them; otherwise generate a fresh pair
(supplied as `freshPub`/`freshPriv`, the collaborator's output), persist both
exports onto the row, and return the fresh pair. -/
def keyPairsDispatcher (db : DB) (username : String) (freshPub freshPriv : String) :
    KeyPairsOut :=
  match usersFind db username with
  | none => ⟨db, [], false⟩
  | some user =>
    if truthy user.publicKey && truthy user.privateKey then
      ⟨db, [(user.publicKey.getD "", user.privateKey.getD "")], false⟩
    else
      let db1 : DB := { db with users := db.users.map (fun u =>
        if u.username == username then
          { u with publicKey := some freshPub, privateKey := some freshPriv }
        else u) }
      ⟨db1, [(freshPub, freshPriv)], true⟩

/-! ## Outbox dispatcher -/

/-- The `Note` object built for each post row. `published` keeps the epoch
milliseconds wrapped in `new Date(...)`; `sensitive` is `!!p.sensitive`. -/
structure NoteObj where
  id : String
  attributedTo : String
  content : String
  published : Int
  sensitive : Bool
deriving Repr, DecidableEq

/-- The `Create` activity wrapping a note, with the actor URI and the public
audience in `to`. -/
structure CreateActivity where
  actor : String
  «to» : String
  object : NoteObj
deriving Repr, DecidableEq

/-- The ActivityStreams public audience URL used in the outbox `to` field. -/
def publicAudience : String := "https://www.w3.org/ns/activitystreams#Public"

/-- `ctx.getActorUri(username)` under the `/users/{identifier}` template. -/
def getActorUri (domain username : String) : String :=
  domain ++ "/users/" ++ username

/-- The pure row → `Create(Note)` mapping of the outbox dispatcher. -/
def postToCreate (domain username : String) (p : PostRow) : CreateActivity :=
  { actor := getActorUri domain username
  , «to» := publicAudience
  , object :=
    { id := domain ++ "/users/" ++ username ++ "/posts/" ++ p.postId
    , attributedTo := getActorUri domain username
    , content := p.title
    , published := p.createdAt
    , sensitive := p.sensitive != 0 } }

/-- `ORDER BY createdAt DESC`: row `a` may precede row `b` when
`b.createdAt ≤ a.createdAt`. -/
def createdAtDesc (a b : PostRow) : Prop := b.createdAt ≤ a.createdAt

instance : DecidableRel createdAtDesc := fun _ _ => Int.decLe _ _

instance : IsTotal PostRow createdAtDesc :=
  ⟨fun a b => le_total b.createdAt a.createdAt⟩

instance : IsTrans PostRow createdAtDesc :=
  ⟨fun _ _ _ h1 h2 => le_trans h2 h1⟩

/-- Result of the outbox dispatcher: store afterwards, returned activities,
and whether an exception propagated out of the awaited `syncPosts`. -/
structure OutboxOut where
  db : DB
  activities : List CreateActivity
  threw : Bool
deriving Repr, DecidableEq

/-- `setOutboxDispatcher` body from server.js: empty sequence when the actor
has no followers (checked *before* syncing); otherwise sync, read the user's
posts ordered by `createdAt` descending, and map each to `Create(Note)`. -/
def outboxDispatcher (db : DB) (domain username : String) (now ttl : Int)
    (uremote : UserFetch) (premote : PostsFetch) : OutboxOut :=
  if !hasFollowers db username then ⟨db, [], false⟩
  else
    let s := syncPosts db username now ttl uremote premote
    if s.threw then ⟨s.db, [], true⟩
    else
      let rows := List.insertionSort createdAtDesc
        (s.db.posts.filter (fun p => p.username == username))
      ⟨s.db, rows.map (postToCreate domain username), false⟩

/-! ## Inbound Follow / Undo handlers -/

/-- The Accept activity the Follow handler constructs: a fresh id under the
local actor's `accepts/` path (random UUID passed in), the local actor URI,
and the original Follow's id as object. -/
structure AcceptActivity where
  id : String
  actor : String
  object : String
deriving Repr, DecidableEq

/-- Result of the Follow handler: store afterwards, the Accept that was
constructed and handed to `sendActivity` (if any). -/
structure FollowOut where
  db : DB
  accept : Option AcceptActivity
deriving Repr, DecidableEq

/-- `INSERT OR IGNORE INTO followers (username, actor) VALUES (?, ?)`. -/
def followersInsertIgnore (db : DB) (username actor : String) : DB :=
  if (username, actor) ∈ db.followers then db
  else { db with followers := db.followers ++ [(username, actor)] }

/-- `DELETE FROM followers WHERE username=? AND actor=?`. -/
def followersDelete (db : DB) (username actor : String) : DB :=
  { db with followers :=
      db.followers.filter (fun f => !(f.1 == username && f.2 == actor)) }

/-- The `.on(Follow, ...)` listener. `usernameOpt` is the resolved local
identifier (from `ctx.parameters` or the URL path, `none` when unresolvable),
`actorIdOpt` is `follow.actorId?.href`, `followIdOpt` the normalized
`follow.id` (`none` when neither a URL nor a string). The follower insert
happens before the follow-id check; the whole body is wrapped in try/catch so
a `sendActivity` failure never unwinds the inserts. -/
def followHandler (db : DB) (domain : String)
    (usernameOpt actorIdOpt followIdOpt : Option String) (uuid : String) : FollowOut :=
  match usernameOpt with
  | none => ⟨db, none⟩
  | some username =>
    match actorIdOpt with
    | none => ⟨db, none⟩
    | some actorId =>
      let db1 := followersInsertIgnore db username actorId
      match followIdOpt with
      | none => ⟨db1, none⟩
      | some followId =>
        ⟨db1, some
          { id := domain ++ "/users/" ++ username ++ "/accepts/" ++ uuid
          , actor := getActorUri domain username
          , object := followId }⟩

/-- The `.on(Undo, ...)` listener: resolve the local username, check the
wrapped object is a Follow, resolve the remote actor id, then delete the
follower row. -/
def undoHandler (db : DB) (usernameOpt : Option String) (objectIsFollow : Bool)
    (actorIdOpt : Option String) : DB :=
  match usernameOpt with
  | none => db
  | some username =>
    if objectIsFollow then
      match actorIdOpt with
      | none => db
      | some actorId => followersDelete db username actorId
    else db

/-! ## Concrete sample data, used to evaluate the verified statements -/

/-- A provisioned user row with `lastPostSync = 0` and no stored keys. -/
def aliceRow : UserRow :=
  { username := "alice", userId := "u1", description := "", avatar := ""
  , createdAt := 5, lastPostSync := 0, lastCommentSync := 0
  , publicKey := none, privateKey := none }

/-- A store holding `alice` with one remote follower. -/
def dbFollowed : DB :=
  { users := [aliceRow], posts := []
  , followers := [("alice", "https://remote.example/users/bob")] }

/-- A store holding `alice` with no followers. -/
def dbUnfollowed : DB :=
  { users := [aliceRow], posts := [], followers := [] }

/-- The empty store. -/
def dbEmpty : DB := { users := [], posts := [], followers := [] }

/-- A sample platform user payload. -/
def remoteAlice : RemoteUser :=
  { username := "alice", userId := "u1", description := none, avatar := none
  , createTime := 5 }

/-- A sample platform user payload whose username differs from `alice`. -/
def remoteCarol : RemoteUser :=
  { username := "carol", userId := "u9", description := some "d", avatar := none
  , createTime := 7 }

/-- Sample platform post payloads. -/
def rpA : RemotePost :=
  { postId := "p1", title := "first", content := some ["a"], isSensitive := false
  , createTime := 100 }

/-- Second sample payload with the same `postId` as `rpA` but another title. -/
def rpB : RemotePost :=
  { postId := "p1", title := "second", content := none, isSensitive := true
  , createTime := 150 }

/-- Stored post rows with distinct creation times, for outbox ordering. -/
def postRowAt (pid : String) (t : Int) : PostRow :=
  { postId := pid, username := "alice", title := "t" ++ pid, rawContent := []
  , sensitive := 0, createdAt := t }

/-- A store where `alice` has a follower and posts created at 100, 300, 200. -/
def dbPosts : DB :=
  { users := [aliceRow]
  , posts := [postRowAt "a" 100, postRowAt "b" 300, postRowAt "c" 200]
  , followers := [("alice", "https://remote.example/users/bob")] }

/-- The same post rows but with zero followers. -/
def dbPostsNoF : DB :=
  { users := [aliceRow]
  , posts := [postRowAt "a" 100, postRowAt "b" 300, postRowAt "c" 200]
  , followers := [] }

/-- `alice` with stored key exports. -/
def aliceKeyed : UserRow :=
  { aliceRow with publicKey := some "PUB", privateKey := some "PRIV" }

/-- A store whose only user already carries both key exports. -/
def dbKeyed : DB := { users := [aliceKeyed], posts := [], followers := [] }

/-! ## Basic lemmas about the store operations -/

theorem usersFind_username {db : DB} {un : String} {u : UserRow}
    (h : usersFind db un = some u) : u.username = un := by
  unfold usersFind at h
  have h' := List.find?_some h
  simpa using h'

theorem usersInsert_eq_some {db : DB} {row : UserRow} {db1 : DB}
    (h : usersInsert db row = some db1) :
    db1 = { db with users := db.users ++ [row] } := by
  unfold usersInsert at h
  split at h
  · exact absurd h (by simp)
  · cases h; rfl

theorem ensureUser_cached {db : DB} {un : String} {u : UserRow}
    (h : usersFind db un = some u) (ur : UserFetch) :
    ensureUser db un ur = ⟨db, some u, false, false, false⟩ := by
  unfold ensureUser
  rw [h]

theorem ensureUser_none_fthrow {db : DB} {un : String} (hf : usersFind db un = none) :
    ensureUser db un UserFetch.fthrow = ⟨db, none, true, false, true⟩ := by
  simp only [ensureUser, hf]

theorem ensureUser_none_notOk {db : DB} {un : String} (hf : usersFind db un = none) :
    ensureUser db un UserFetch.notOk = ⟨db, none, true, false, false⟩ := by
  simp only [ensureUser, hf]

theorem ensureUser_none_okNone {db : DB} {un : String} (hf : usersFind db un = none) :
    ensureUser db un (UserFetch.ok none) = ⟨db, none, true, false, false⟩ := by
  simp only [ensureUser, hf]

theorem ensureUser_none_conflict {db : DB} {un : String} {u : RemoteUser}
    (hf : usersFind db un = none) (hi : usersInsert db (freshUserRow u) = none) :
    ensureUser db un (UserFetch.ok (some u)) = ⟨db, none, true, false, true⟩ := by
  simp only [ensureUser, hf, hi]

theorem ensureUser_none_insert {db : DB} {un : String} {u : RemoteUser} {db1 : DB}
    (hf : usersFind db un = none) (hi : usersInsert db (freshUserRow u) = some db1) :
    ensureUser db un (UserFetch.ok (some u)) = ⟨db1, usersFind db1 un, true, true, false⟩ := by
  simp only [ensureUser, hf, hi]

theorem ensureUser_posts (db : DB) (un : String) (ur : UserFetch) :
    (ensureUser db un ur).db.posts = db.posts := by
  cases hf : usersFind db un with
  | some u => rw [ensureUser_cached hf]
  | none =>
    cases ur with
    | fthrow => rw [ensureUser_none_fthrow hf]
    | notOk => rw [ensureUser_none_notOk hf]
    | ok oi =>
      cases oi with
      | none => rw [ensureUser_none_okNone hf]
      | some u =>
        cases hi : usersInsert db (freshUserRow u) with
        | none => rw [ensureUser_none_conflict hf hi]
        | some db1 =>
          rw [ensureUser_none_insert hf hi]
          rw [usersInsert_eq_some hi]

theorem ensureUser_followers (db : DB) (un : String) (ur : UserFetch) :
    (ensureUser db un ur).db.followers = db.followers := by
  cases hf : usersFind db un with
  | some u => rw [ensureUser_cached hf]
  | none =>
    cases ur with
    | fthrow => rw [ensureUser_none_fthrow hf]
    | notOk => rw [ensureUser_none_notOk hf]
    | ok oi =>
      cases oi with
      | none => rw [ensureUser_none_okNone hf]
      | some u =>
        cases hi : usersInsert db (freshUserRow u) with
        | none => rw [ensureUser_none_conflict hf hi]
        | some db1 =>
          rw [ensureUser_none_insert hf hi]
          rw [usersInsert_eq_some hi]

theorem ensureUser_user_none_of_threw {db : DB} {un : String} {ur : UserFetch}
    (h : (ensureUser db un ur).threw = true) : (ensureUser db un ur).user = none := by
  cases hf : usersFind db un with
  | some u => rw [ensureUser_cached hf] at h; simp at h
  | none =>
    cases ur with
    | fthrow => rw [ensureUser_none_fthrow hf]
    | notOk => rw [ensureUser_none_notOk hf] at h; simp at h
    | ok oi =>
      cases oi with
      | none => rw [ensureUser_none_okNone hf] at h; simp at h
      | some u =>
        cases hi : usersInsert db (freshUserRow u) with
        | none => rw [ensureUser_none_conflict hf hi]
        | some db1 => rw [ensureUser_none_insert hf hi] at h; simp at h

theorem ensureUser_user_find {db : DB} {un : String} {ur : UserFetch} {u : UserRow}
    (h : (ensureUser db un ur).user = some u) :
    usersFind (ensureUser db un ur).db un = some u := by
  cases hf : usersFind db un with
  | some u0 =>
    rw [ensureUser_cached hf] at h ⊢
    simpa [hf] using h
  | none =>
    cases ur with
    | fthrow => rw [ensureUser_none_fthrow hf] at h; simp at h
    | notOk => rw [ensureUser_none_notOk hf] at h; simp at h
    | ok oi =>
      cases oi with
      | none => rw [ensureUser_none_okNone hf] at h; simp at h
      | some u1 =>
        cases hi : usersInsert db (freshUserRow u1) with
        | none => rw [ensureUser_none_conflict hf hi] at h; simp at h
        | some db1 =>
          rw [ensureUser_none_insert hf hi] at h ⊢
          simpa using h

theorem applyPosts_users (db : DB) (un : String) (ps : List RemotePost) :
    (applyPosts db un ps).users = db.users := by
  induction ps generalizing db with
  | nil => rfl
  | cons p ps ih => rw [applyPosts, ih]

theorem applyPosts_followers (db : DB) (un : String) (ps : List RemotePost) :
    (applyPosts db un ps).followers = db.followers := by
  induction ps generalizing db with
  | nil => rfl
  | cons p ps ih => rw [applyPosts, ih]

theorem setLastPostSync_posts (db : DB) (un : String) (now : Int) :
    (setLastPostSync db un now).posts = db.posts := rfl

theorem setLastPostSync_followers (db : DB) (un : String) (now : Int) :
    (setLastPostSync db un now).followers = db.followers := rfl

theorem find?_map_update (l : List UserRow) (un : String) (f : UserRow → UserRow)
    (hf : ∀ u, (f u).username = u.username) :
    (l.map (fun u => if u.username == un then f u else u)).find?
        (fun u => u.username == un) =
      (l.find? (fun u => u.username == un)).map f := by
  induction l with
  | nil => rfl
  | cons u l ih =>
    by_cases h : u.username = un
    · have h1 : (((if u.username == un then f u else u).username == un) = true) := by
        simp [h, hf u]
      have h2 : ((u.username == un) = true) := by simp [h]
      simp only [List.map_cons, List.find?_cons, h1, h2, Option.map_some]
      simp [h, hf u]
    · have h1 : (((if u.username == un then f u else u).username == un) = false) := by
        simp [h]
      have h2 : ((u.username == un) = false) := by simp [h]
      simp only [List.map_cons, List.find?_cons, h1, h2, ih]
      simp [h2]

theorem usersFind_setLastPostSync (db : DB) (un : String) (now : Int) :
    usersFind (setLastPostSync db un now) un =
      (usersFind db un).map (fun u => { u with lastPostSync := now }) := by
  unfold usersFind setLastPostSync
  exact find?_map_update db.users un (fun u => { u with lastPostSync := now })
    (fun _ => rfl)

theorem syncPosts_threw {db : DB} {un : String} {now ttl : Int} {ur : UserFetch}
    (pr : PostsFetch) (ht : (ensureUser db un ur).threw = true) :
    syncPosts db un now ttl ur pr = ⟨(ensureUser db un ur).db, false, true⟩ := by
  unfold syncPosts
  simp only [ht, if_true]

theorem syncPosts_noUser {db : DB} {un : String} {now ttl : Int} {ur : UserFetch}
    (pr : PostsFetch) (ht : (ensureUser db un ur).threw = false)
    (hu : (ensureUser db un ur).user = none) :
    syncPosts db un now ttl ur pr = ⟨(ensureUser db un ur).db, false, false⟩ := by
  unfold syncPosts
  simp only [ht, hu, Bool.false_eq_true, if_false]

theorem syncPosts_noFollowers {db : DB} {un : String} {now ttl : Int} {ur : UserFetch}
    {u : UserRow} (pr : PostsFetch) (ht : (ensureUser db un ur).threw = false)
    (hu : (ensureUser db un ur).user = some u)
    (hF : hasFollowers (ensureUser db un ur).db un = false) :
    syncPosts db un now ttl ur pr = ⟨(ensureUser db un ur).db, false, false⟩ := by
  unfold syncPosts
  simp only [ht, hu, hF, Bool.false_eq_true, if_false, Bool.not_false, if_true]

theorem syncPosts_ttl {db : DB} {un : String} {now ttl : Int} {ur : UserFetch}
    {u : UserRow} (pr : PostsFetch) (ht : (ensureUser db un ur).threw = false)
    (hu : (ensureUser db un ur).user = some u)
    (hF : hasFollowers (ensureUser db un ur).db un = true)
    (hT : now - u.lastPostSync < ttl) :
    syncPosts db un now ttl ur pr = ⟨(ensureUser db un ur).db, false, false⟩ := by
  unfold syncPosts
  simp only [ht, hu, hF, hT, Bool.false_eq_true, if_false, Bool.not_true, if_true]

theorem syncPosts_fetch {db : DB} {un : String} {now ttl : Int} {ur : UserFetch}
    {u : UserRow} (pr : PostsFetch) (ht : (ensureUser db un ur).threw = false)
    (hu : (ensureUser db un ur).user = some u)
    (hF : hasFollowers (ensureUser db un ur).db un = true)
    (hT : ¬(now - u.lastPostSync < ttl)) :
    syncPosts db un now ttl ur pr =
      match pr with
      | .fthrow => ⟨(ensureUser db un ur).db, true, true⟩
      | .notOk => ⟨(ensureUser db un ur).db, true, false⟩
      | .ok ps =>
        ⟨setLastPostSync (applyPosts (ensureUser db un ur).db un (ps.getD [])) un now,
          true, false⟩ := by
  unfold syncPosts
  simp only [ht, hu, hF, hT, Bool.false_eq_true, if_false, Bool.not_true, if_true]

theorem usersFind_congr {db db' : DB} (h : db.users = db'.users) (un : String) :
    usersFind db un = usersFind db' un := by
  unfold usersFind; rw [h]

theorem hasFollowers_congr {db db' : DB} (h : db.followers = db'.followers) (un : String) :
    hasFollowers db un = hasFollowers db' un := by
  unfold hasFollowers; rw [h]

theorem ensureUser_users_append (db : DB) (un : String) (ur : UserFetch) :
    ∃ l, (ensureUser db un ur).db.users = db.users ++ l := by
  cases hf : usersFind db un with
  | some u => exact ⟨[], by rw [ensureUser_cached hf]; simp⟩
  | none =>
    cases ur with
    | fthrow => exact ⟨[], by rw [ensureUser_none_fthrow hf]; simp⟩
    | notOk => exact ⟨[], by rw [ensureUser_none_notOk hf]; simp⟩
    | ok oi =>
      cases oi with
      | none => exact ⟨[], by rw [ensureUser_none_okNone hf]; simp⟩
      | some ru =>
        cases hi : usersInsert db (freshUserRow ru) with
        | none => exact ⟨[], by rw [ensureUser_none_conflict hf hi]; simp⟩
        | some db1 =>
          exact ⟨[freshUserRow ru], by
            rw [ensureUser_none_insert hf hi, usersInsert_eq_some hi]⟩

theorem usersFind_ensureUser_of_found {db : DB} {un x : String} {u : UserRow}
    (ur : UserFetch) (h : usersFind db x = some u) :
    usersFind (ensureUser db un ur).db x = some u := by
  obtain ⟨l, hl⟩ := ensureUser_users_append db un ur
  unfold usersFind at h ⊢
  rw [hl, List.find?_append, h]
  rfl

theorem syncPosts_fetched_iff (db : DB) (un : String) (now ttl : Int)
    (ur : UserFetch) (pr : PostsFetch) :
    (syncPosts db un now ttl ur pr).fetched = true ↔
      ∃ u, (ensureUser db un ur).user = some u ∧
        hasFollowers (ensureUser db un ur).db un = true ∧
        ttl ≤ now - u.lastPostSync := by
  constructor
  · intro h
    cases ht : (ensureUser db un ur).threw with
    | true => rw [syncPosts_threw pr ht] at h; simp at h
    | false =>
      cases hu : (ensureUser db un ur).user with
      | none => rw [syncPosts_noUser pr ht hu] at h; simp at h
      | some u =>
        cases hF : hasFollowers (ensureUser db un ur).db un with
        | false => rw [syncPosts_noFollowers pr ht hu hF] at h; simp at h
        | true =>
          by_cases hT : now - u.lastPostSync < ttl
          · rw [syncPosts_ttl pr ht hu hF hT] at h; simp at h
          · exact ⟨u, rfl, rfl, by omega⟩
  · rintro ⟨u, hu, hF, hT⟩
    cases ht : (ensureUser db un ur).threw with
    | true => rw [ensureUser_user_none_of_threw ht] at hu; cases hu
    | false =>
      have hT' : ¬(now - u.lastPostSync < ttl) := by omega
      rw [syncPosts_fetch pr ht hu hF hT']
      cases pr <;> rfl

/-! ## Claim theorems -/

/-- C1: `syncPosts` issues the remote post fetch iff all three gates pass —
`ensureUser` returns a row, `hasFollowers` is true, and
`now − lastPostSync ≥ SYNC_TTL`. In particular a user with zero followers is
never fetched regardless of elapsed time, and after a successful fetch a
second call within `ttl` of the first issues no fetch while a call at least
`ttl` later issues one (each call issues at most one fetch by construction,
so "exactly one"). -/
theorem syncPosts_gating (db : DB) (un : String) (now ttl : Int)
    (ur : UserFetch) (pr : PostsFetch) :
    ((syncPosts db un now ttl ur pr).fetched = true ↔
      ∃ u, (ensureUser db un ur).user = some u ∧
        hasFollowers db un = true ∧ ttl ≤ now - u.lastPostSync)
    ∧ (hasFollowers db un = false →
        (syncPosts db un now ttl ur pr).fetched = false)
    ∧ (∀ (ps : Option (List RemotePost)) (now₂ : Int) (ur₂ : UserFetch) (pr₂ : PostsFetch),
        pr = PostsFetch.ok ps →
        (syncPosts db un now ttl ur pr).fetched = true →
        ((now₂ - now < ttl →
            (syncPosts (syncPosts db un now ttl ur pr).db un now₂ ttl ur₂ pr₂).fetched
              = false)
          ∧ (ttl ≤ now₂ - now →
            (syncPosts (syncPosts db un now ttl ur pr).db un now₂ ttl ur₂ pr₂).fetched
              = true))) := by
  have hFc := hasFollowers_congr (ensureUser_followers db un ur) un
  refine ⟨?_, ?_, ?_⟩
  · rw [syncPosts_fetched_iff db un now ttl ur pr, hFc]
  · intro h0
    cases hft : (syncPosts db un now ttl ur pr).fetched with
    | false => rfl
    | true =>
      obtain ⟨u, _, hF, _⟩ := (syncPosts_fetched_iff db un now ttl ur pr).mp hft
      rw [hFc, h0] at hF
      cases hF
  · rintro ps now₂ ur₂ pr₂ rfl h1
    obtain ⟨u, hu, hF, hT⟩ :=
      (syncPosts_fetched_iff db un now ttl ur (PostsFetch.ok ps)).mp h1
    have ht : (ensureUser db un ur).threw = false := by
      cases hth : (ensureUser db un ur).threw with
      | false => rfl
      | true => rw [ensureUser_user_none_of_threw hth] at hu; cases hu
    have hT' : ¬(now - u.lastPostSync < ttl) := by omega
    have hdb : (syncPosts db un now ttl ur (PostsFetch.ok ps)).db =
        setLastPostSync (applyPosts (ensureUser db un ur).db un (ps.getD [])) un now := by
      rw [syncPosts_fetch (PostsFetch.ok ps) ht hu hF hT']
    have hfind : usersFind (syncPosts db un now ttl ur (PostsFetch.ok ps)).db un =
        some { u with lastPostSync := now } := by
      rw [hdb, usersFind_setLastPostSync,
        usersFind_congr (applyPosts_users (ensureUser db un ur).db un (ps.getD [])) un,
        ensureUser_user_find hu]
      rfl
    have hF₁ : hasFollowers (syncPosts db un now ttl ur (PostsFetch.ok ps)).db un = true := by
      rw [hdb]
      have hc : hasFollowers
          (setLastPostSync (applyPosts (ensureUser db un ur).db un (ps.getD [])) un now) un =
          hasFollowers (ensureUser db un ur).db un := by
        apply hasFollowers_congr
        rw [setLastPostSync_followers, applyPosts_followers]
      rw [hc]
      exact hF
    have he₂ := ensureUser_cached hfind ur₂
    constructor
    · intro hlt
      cases hft₂ : (syncPosts (syncPosts db un now ttl ur (PostsFetch.ok ps)).db
          un now₂ ttl ur₂ pr₂).fetched with
      | false => rfl
      | true =>
        obtain ⟨v, hv, _, hTv⟩ :=
          (syncPosts_fetched_iff (syncPosts db un now ttl ur (PostsFetch.ok ps)).db
            un now₂ ttl ur₂ pr₂).mp hft₂
        rw [he₂] at hv
        have hv' : v = { u with lastPostSync := now } := by simpa using hv.symm
        rw [hv'] at hTv
        simp only [] at hTv
        exact absurd hTv (by omega)
    · intro hge
      apply (syncPosts_fetched_iff (syncPosts db un now ttl ur (PostsFetch.ok ps)).db
        un now₂ ttl ur₂ pr₂).mpr
      refine ⟨{ u with lastPostSync := now }, ?_, ?_, ?_⟩
      · rw [he₂]
      · rw [he₂]; exact hF₁
      · simpa using hge

/-- Witness for C1 at concrete inputs: `alice` with one follower and
`lastPostSync = 0`, `now = 1000`, `ttl = 300`: the first sync fetches; the
same sync for the unfollowed store does not; after the successful sync a call
at 1100 does not fetch and a call at 1400 does. -/
theorem syncPosts_gating_witness :
    (syncPosts dbFollowed "alice" 1000 300 UserFetch.notOk
        (PostsFetch.ok (some []))).fetched = true
    ∧ (syncPosts dbUnfollowed "alice" 1000 300 UserFetch.notOk
        (PostsFetch.ok (some []))).fetched = false
    ∧ (syncPosts (syncPosts dbFollowed "alice" 1000 300 UserFetch.notOk
          (PostsFetch.ok (some []))).db
        "alice" 1100 300 UserFetch.notOk (PostsFetch.ok (some []))).fetched = false
    ∧ (syncPosts (syncPosts dbFollowed "alice" 1000 300 UserFetch.notOk
          (PostsFetch.ok (some []))).db
        "alice" 1400 300 UserFetch.notOk (PostsFetch.ok (some []))).fetched = true := by
  refine ⟨?_, ?_, ?_, ?_⟩
  · exact (syncPosts_gating dbFollowed "alice" 1000 300 UserFetch.notOk
      (PostsFetch.ok (some []))).1.mpr ⟨aliceRow, by decide, by decide, by decide⟩
  · exact (syncPosts_gating dbUnfollowed "alice" 1000 300 UserFetch.notOk
      (PostsFetch.ok (some []))).2.1 (by decide)
  · exact ((syncPosts_gating dbFollowed "alice" 1000 300 UserFetch.notOk
      (PostsFetch.ok (some []))).2.2 (some []) 1100 UserFetch.notOk
      (PostsFetch.ok (some [])) rfl (by decide)).1 (by decide)
  · exact ((syncPosts_gating dbFollowed "alice" 1000 300 UserFetch.notOk
      (PostsFetch.ok (some []))).2.2 (some []) 1400 UserFetch.notOk
      (PostsFetch.ok (some [])) rfl (by decide)).2 (by decide)

/-- C2: `ensureUser` is idempotent — a cache hit returns the stored row
unchanged with no fetch and no insert; and whenever a call returns a row, a
subsequent call with the same username is a pure read (no fetch, no insert,
store untouched) returning the same row, the fetch/insert having happened
exactly once, on the first call if that call started from an empty cache. -/
theorem ensureUser_idempotent (db : DB) (un : String) (ur ur₂ : UserFetch) :
    (∀ u0, usersFind db un = some u0 →
      ensureUser db un ur = ⟨db, some u0, false, false, false⟩)
    ∧ (∀ u1, (ensureUser db un ur).user = some u1 →
        (usersFind db un = none →
          (ensureUser db un ur).fetched = true ∧ (ensureUser db un ur).inserted = true)
        ∧ ensureUser (ensureUser db un ur).db un ur₂ =
            ⟨(ensureUser db un ur).db, some u1, false, false, false⟩) := by
  refine ⟨?_, ?_⟩
  · intro u0 h
    exact ensureUser_cached h ur
  · intro u1 h1
    refine ⟨?_, ensureUser_cached (ensureUser_user_find h1) ur₂⟩
    intro hf
    cases ur with
    | fthrow => rw [ensureUser_none_fthrow hf] at h1; cases h1
    | notOk => rw [ensureUser_none_notOk hf] at h1; cases h1
    | ok oi =>
      cases oi with
      | none => rw [ensureUser_none_okNone hf] at h1; cases h1
      | some ru =>
        cases hi : usersInsert db (freshUserRow ru) with
        | none => rw [ensureUser_none_conflict hf hi] at h1; cases h1
        | some db1 => rw [ensureUser_none_insert hf hi]; exact ⟨rfl, rfl⟩

/-- Witness for C2: a cache hit on `alice` is a pure read; provisioning
`alice` into the empty store fetches and inserts once, and the follow-up call
is a pure read returning the same row. -/
theorem ensureUser_idempotent_witness :
    (ensureUser dbUnfollowed "alice" UserFetch.notOk =
      ⟨dbUnfollowed, some aliceRow, false, false, false⟩)
    ∧ ((ensureUser dbEmpty "alice" (UserFetch.ok (some remoteAlice))).fetched = true
        ∧ (ensureUser dbEmpty "alice" (UserFetch.ok (some remoteAlice))).inserted = true)
    ∧ (ensureUser (ensureUser dbEmpty "alice" (UserFetch.ok (some remoteAlice))).db "alice"
        UserFetch.notOk =
      ⟨(ensureUser dbEmpty "alice" (UserFetch.ok (some remoteAlice))).db, some aliceRow,
        false, false, false⟩) := by
  refine ⟨?_, ?_, ?_⟩
  · exact (ensureUser_idempotent dbUnfollowed "alice" UserFetch.notOk UserFetch.notOk).1
      aliceRow (by decide)
  · exact ((ensureUser_idempotent dbEmpty "alice" (UserFetch.ok (some remoteAlice))
      UserFetch.notOk).2 aliceRow (by decide)).1 (by decide)
  · exact ((ensureUser_idempotent dbEmpty "alice" (UserFetch.ok (some remoteAlice))
      UserFetch.notOk).2 aliceRow (by decide)).2

theorem keyPairs_noUser {db : DB} {un : String} (p v : String)
    (hf : usersFind db un = none) :
    keyPairsDispatcher db un p v = ⟨db, [], false⟩ := by
  unfold keyPairsDispatcher
  rw [hf]

theorem keyPairs_stored {db : DB} {un : String} {user : UserRow} (p v : String)
    (hf : usersFind db un = some user)
    (h2 : truthy user.publicKey = true) (h3 : truthy user.privateKey = true) :
    keyPairsDispatcher db un p v =
      ⟨db, [(user.publicKey.getD "", user.privateKey.getD "")], false⟩ := by
  unfold keyPairsDispatcher
  rw [hf]
  simp [h2, h3]

theorem keyPairs_generate {db : DB} {un : String} {user : UserRow} (p v : String)
    (hf : usersFind db un = some user)
    (h2 : ¬(truthy user.publicKey = true ∧ truthy user.privateKey = true)) :
    keyPairsDispatcher db un p v =
      ⟨{ db with users := db.users.map (fun u =>
          if u.username == un then
            { u with publicKey := some p, privateKey := some v }
          else u) }, [(p, v)], true⟩ := by
  unfold keyPairsDispatcher
  rw [hf]
  have hb : (truthy user.publicKey && truthy user.privateKey) ≠ true :=
    fun hcontra => h2 (by simpa using hcontra)
  simp [hb]

theorem usersFind_keyUpdate (db : DB) (un : String) (p v : String) :
    usersFind { db with users := db.users.map (fun u =>
        if u.username == un then
          { u with publicKey := some p, privateKey := some v }
        else u) } un =
      (usersFind db un).map
        (fun u => { u with publicKey := some p, privateKey := some v }) :=
  find?_map_update db.users un
    (fun u => { u with publicKey := some p, privateKey := some v }) (fun _ => rfl)

/-- C3: the key-pair dispatcher generates at most once per username — stored
truthy key columns are deserialized and returned with no generation and no
write; otherwise the fresh pair is generated, both exports persisted onto the
row, and any later invocation (with any other fresh material) returns the
first call's exported key material without generating. -/
theorem keyPairs_generate_once (db : DB) (un : String) (p1 v1 p2 v2 : String)
    (hp : p1 ≠ "") (hv : v1 ≠ "") :
    (∀ user, usersFind db un = some user →
      truthy user.publicKey = true → truthy user.privateKey = true →
      keyPairsDispatcher db un p1 v1 =
        ⟨db, [(user.publicKey.getD "", user.privateKey.getD "")], false⟩)
    ∧ (∀ user, usersFind db un = some user →
        ¬(truthy user.publicKey = true ∧ truthy user.privateKey = true) →
        ((keyPairsDispatcher db un p1 v1).generated = true
          ∧ (keyPairsDispatcher db un p1 v1).pairs = [(p1, v1)]
          ∧ keyPairsDispatcher (keyPairsDispatcher db un p1 v1).db un p2 v2 =
              ⟨(keyPairsDispatcher db un p1 v1).db, [(p1, v1)], false⟩)) := by
  refine ⟨?_, ?_⟩
  · intro user hf h2 h3
    exact keyPairs_stored p1 v1 hf h2 h3
  · intro user hf h2
    rw [keyPairs_generate p1 v1 hf h2]
    refine ⟨rfl, rfl, ?_⟩
    have hfind : usersFind { db with users := db.users.map (fun u =>
        if u.username == un then
          { u with publicKey := some p1, privateKey := some v1 }
        else u) } un =
          some { user with publicKey := some p1, privateKey := some v1 } := by
      rw [usersFind_keyUpdate, hf]
      rfl
    have h2' : truthy (some p1) = true := by simp [truthy, hp]
    have h3' : truthy (some v1) = true := by simp [truthy, hv]
    exact keyPairs_stored p2 v2 hfind h2' h3'

/-- Witness for C3: stored keys are returned unchanged for `dbKeyed`; for the
keyless `alice` the first call generates and persists `(PUB, PRIV)` and the
second call returns the same exported material without generating. -/
theorem keyPairs_generate_once_witness :
    (keyPairsDispatcher dbKeyed "alice" "X" "Y" =
      ⟨dbKeyed, [(aliceKeyed.publicKey.getD "", aliceKeyed.privateKey.getD "")], false⟩)
    ∧ ((keyPairsDispatcher dbUnfollowed "alice" "PUB" "PRIV").generated = true
        ∧ (keyPairsDispatcher dbUnfollowed "alice" "PUB" "PRIV").pairs = [("PUB", "PRIV")]
        ∧ keyPairsDispatcher (keyPairsDispatcher dbUnfollowed "alice" "PUB" "PRIV").db
            "alice" "X" "Y" =
          ⟨(keyPairsDispatcher dbUnfollowed "alice" "PUB" "PRIV").db,
            [("PUB", "PRIV")], false⟩) := by
  refine ⟨?_, ?_⟩
  · exact (keyPairs_generate_once dbKeyed "alice" "X" "Y" "X" "Y"
      (by decide) (by decide)).1 aliceKeyed (by decide) (by decide) (by decide)
  · exact (keyPairs_generate_once dbUnfollowed "alice" "PUB" "PRIV" "X" "Y"
      (by decide) (by decide)).2 aliceRow (by decide) (by decide)

theorem countP_postsUpsert (l : List PostRow) (r : PostRow) (pid : String) :
    (postsUpsert l r).countP (fun q => q.postId == pid) =
      if r.postId = pid then 1 else l.countP (fun q => q.postId == pid) := by
  unfold postsUpsert
  rw [List.countP_append, List.countP_filter]
  by_cases h : r.postId = pid
  · rw [if_pos h]
    have hz : l.countP (fun a => (a.postId == pid) && !(a.postId == r.postId)) = 0 := by
      rw [List.countP_eq_zero]
      intro a _
      by_cases ha : a.postId = pid
      · simp [ha, h]
      · simp [ha]
    rw [hz]
    simp [List.countP_cons, h]
  · rw [if_neg h]
    have hc : l.countP (fun a => (a.postId == pid) && !(a.postId == r.postId)) =
        l.countP (fun a => a.postId == pid) := by
      apply List.countP_congr
      intro a _
      by_cases ha : a.postId = pid
      · simp [ha, Ne.symm h]
      · simp [ha]
    rw [hc]
    simp [List.countP_cons, h]

theorem countP_applyPosts (db : DB) (un : String) (ps : List RemotePost) (pid : String) :
    (applyPosts db un ps).posts.countP (fun q => q.postId == pid) ≤
      max (db.posts.countP (fun q => q.postId == pid)) 1 := by
  induction ps generalizing db with
  | nil => exact le_max_left _ _
  | cons p ps ih =>
    rw [applyPosts]
    refine le_trans (ih _) ?_
    have hup := countP_postsUpsert db.posts (storePost un p) pid
    by_cases h : (storePost un p).postId = pid
    · rw [if_pos h] at hup
      simp [hup]
    · rw [if_neg h] at hup
      simp [hup]

theorem filter_postsUpsert_self (l : List PostRow) (r : PostRow) :
    (postsUpsert l r).filter (fun q => q.postId == r.postId) = [r] := by
  unfold postsUpsert
  rw [List.filter_append, List.filter_filter]
  have h1 : l.filter (fun a => (a.postId == r.postId) && !(a.postId == r.postId)) = [] := by
    apply List.filter_eq_nil_iff.mpr
    intro a _
    by_cases ha : a.postId = r.postId <;> simp [ha]
  rw [h1]
  simp

theorem syncPosts_posts_shape (db : DB) (un : String) (now ttl : Int)
    (ur : UserFetch) (pr : PostsFetch) :
    (syncPosts db un now ttl ur pr).db.posts = db.posts ∨
    ∃ ps, pr = PostsFetch.ok ps ∧
      (syncPosts db un now ttl ur pr).db.posts =
        (applyPosts (ensureUser db un ur).db un (ps.getD [])).posts := by
  cases ht : (ensureUser db un ur).threw with
  | true => left; rw [syncPosts_threw pr ht]; exact ensureUser_posts db un ur
  | false =>
    cases hu : (ensureUser db un ur).user with
    | none => left; rw [syncPosts_noUser pr ht hu]; exact ensureUser_posts db un ur
    | some u =>
      cases hF : hasFollowers (ensureUser db un ur).db un with
      | false =>
        left; rw [syncPosts_noFollowers pr ht hu hF]; exact ensureUser_posts db un ur
      | true =>
        by_cases hT : now - u.lastPostSync < ttl
        · left; rw [syncPosts_ttl pr ht hu hF hT]; exact ensureUser_posts db un ur
        · cases pr with
          | fthrow =>
            left
            rw [syncPosts_fetch PostsFetch.fthrow ht hu hF hT]
            exact ensureUser_posts db un ur
          | notOk =>
            left
            rw [syncPosts_fetch PostsFetch.notOk ht hu hF hT]
            exact ensureUser_posts db un ur
          | ok ps =>
            right
            refine ⟨ps, rfl, ?_⟩
            rw [syncPosts_fetch (PostsFetch.ok ps) ht hu hF hT]
            rfl

theorem syncPosts_db_of_fetched_ok {db : DB} {un : String} {now ttl : Int}
    {ur : UserFetch} {ps : Option (List RemotePost)}
    (h : (syncPosts db un now ttl ur (PostsFetch.ok ps)).fetched = true) :
    (syncPosts db un now ttl ur (PostsFetch.ok ps)).db =
      setLastPostSync (applyPosts (ensureUser db un ur).db un (ps.getD [])) un now := by
  obtain ⟨u, hu, hF, hT⟩ :=
    (syncPosts_fetched_iff db un now ttl ur (PostsFetch.ok ps)).mp h
  have ht : (ensureUser db un ur).threw = false := by
    cases hth : (ensureUser db un ur).threw with
    | false => rfl
    | true => rw [ensureUser_user_none_of_threw hth] at hu; cases hu
  have hT' : ¬(now - u.lastPostSync < ttl) := by omega
  rw [syncPosts_fetch (PostsFetch.ok ps) ht hu hF hT']

/-- C4: post storage has upsert semantics keyed by `postId` — a sync never
raises the number of rows for any `postId` above one, and syncing the same
`postId` twice (with different titles) leaves exactly one row for it, the one
built from the most recent payload. -/
theorem post_upsert_semantics (db : DB) (un : String) (now now₂ ttl : Int)
    (ur ur₂ : UserFetch) (pr : PostsFetch) (p1 p2 : RemotePost)
    (hpid : p1.postId = p2.postId) :
    (∀ pid, (syncPosts db un now ttl ur pr).db.posts.countP (fun q => q.postId == pid) ≤
        max (db.posts.countP (fun q => q.postId == pid)) 1)
    ∧ ((syncPosts db un now ttl ur (PostsFetch.ok (some [p1]))).fetched = true →
       (syncPosts (syncPosts db un now ttl ur (PostsFetch.ok (some [p1]))).db un now₂ ttl
          ur₂ (PostsFetch.ok (some [p2]))).fetched = true →
       ((syncPosts (syncPosts db un now ttl ur (PostsFetch.ok (some [p1]))).db un now₂ ttl
            ur₂ (PostsFetch.ok (some [p2]))).db.posts.filter
              (fun q => q.postId == p1.postId) = [storePost un p2]
        ∧ (syncPosts (syncPosts db un now ttl ur (PostsFetch.ok (some [p1]))).db un now₂ ttl
            ur₂ (PostsFetch.ok (some [p2]))).db.posts.countP
              (fun q => q.postId == p1.postId) = 1)) := by
  refine ⟨?_, ?_⟩
  · intro pid
    rcases syncPosts_posts_shape db un now ttl ur pr with heq | ⟨ps, _, heq⟩
    · rw [heq]
      exact le_max_left _ _
    · rw [heq]
      have hb := countP_applyPosts (ensureUser db un ur).db un (ps.getD []) pid
      rw [ensureUser_posts db un ur] at hb
      exact hb
  · intro h1 h2
    have hd2 := syncPosts_db_of_fetched_ok h2
    have hposts : (syncPosts (syncPosts db un now ttl ur (PostsFetch.ok (some [p1]))).db
        un now₂ ttl ur₂ (PostsFetch.ok (some [p2]))).db.posts =
        postsUpsert (ensureUser (syncPosts db un now ttl ur (PostsFetch.ok (some [p1]))).db
          un ur₂).db.posts (storePost un p2) := by
      rw [hd2]
      rfl
    constructor
    · rw [hposts, hpid]
      exact filter_postsUpsert_self _ (storePost un p2)
    · rw [hposts, countP_postsUpsert]
      have hcond : (storePost un p2).postId = p1.postId := by
        show p2.postId = p1.postId
        exact hpid.symm
      rw [if_pos hcond]

/-- Witness for C4: syncing `p1` as "first" and then as "second" (payloads
`rpA`, `rpB`) into the followed store leaves exactly one `p1` row carrying the
second payload. -/
theorem post_upsert_semantics_witness :
    ((syncPosts dbFollowed "alice" 1000 300 UserFetch.notOk PostsFetch.notOk).db.posts.countP
        (fun q => q.postId == "p1") ≤
      max (dbFollowed.posts.countP (fun q => q.postId == "p1")) 1)
    ∧ ((syncPosts (syncPosts dbFollowed "alice" 1000 300 UserFetch.notOk
          (PostsFetch.ok (some [rpA]))).db "alice" 1400 300 UserFetch.notOk
          (PostsFetch.ok (some [rpB]))).db.posts.filter
            (fun q => q.postId == rpA.postId) = [storePost "alice" rpB]
        ∧ (syncPosts (syncPosts dbFollowed "alice" 1000 300 UserFetch.notOk
            (PostsFetch.ok (some [rpA]))).db "alice" 1400 300 UserFetch.notOk
            (PostsFetch.ok (some [rpB]))).db.posts.countP
              (fun q => q.postId == rpA.postId) = 1) := by
  refine ⟨?_, ?_⟩
  · exact (post_upsert_semantics dbFollowed "alice" 1000 1400 300 UserFetch.notOk
      UserFetch.notOk PostsFetch.notOk rpA rpB rfl).1 "p1"
  · exact (post_upsert_semantics dbFollowed "alice" 1000 1400 300 UserFetch.notOk
      UserFetch.notOk PostsFetch.notOk rpA rpB rfl).2 (by decide) (by decide)

theorem outbox_noFollowers {db : DB} {domain un : String} {now ttl : Int}
    {ur : UserFetch} {pr : PostsFetch} (hF : hasFollowers db un = false) :
    outboxDispatcher db domain un now ttl ur pr = ⟨db, [], false⟩ := by
  unfold outboxDispatcher
  simp [hF]

theorem outbox_threw_eq (db : DB) (domain un : String) (now ttl : Int)
    (ur : UserFetch) (pr : PostsFetch) (hF : hasFollowers db un = true) :
    (outboxDispatcher db domain un now ttl ur pr).threw =
      (syncPosts db un now ttl ur pr).threw := by
  unfold outboxDispatcher
  by_cases hs : (syncPosts db un now ttl ur pr).threw = true <;> simp [hF, hs]

theorem outbox_run {db : DB} {domain un : String} {now ttl : Int}
    {ur : UserFetch} {pr : PostsFetch} (hF : hasFollowers db un = true)
    (hs : (syncPosts db un now ttl ur pr).threw = false) :
    outboxDispatcher db domain un now ttl ur pr =
      ⟨(syncPosts db un now ttl ur pr).db,
        (List.insertionSort createdAtDesc
          ((syncPosts db un now ttl ur pr).db.posts.filter
            (fun p => p.username == un))).map (postToCreate domain un), false⟩ := by
  unfold outboxDispatcher
  simp [hF, hs]

/-- C5: the outbox is empty whenever the actor has no followers (even with
stored Post rows); otherwise it is the user's stored posts after the gated
sync, in `createdAt`-descending order, mapped order-preservingly to
`Create(Note)` activities addressed to the public audience, carrying title as
content, the creation time, and the sensitivity flag. -/
theorem outbox_spec (db : DB) (domain un : String) (now ttl : Int)
    (ur : UserFetch) (pr : PostsFetch) :
    (hasFollowers db un = false →
      outboxDispatcher db domain un now ttl ur pr = ⟨db, [], false⟩)
    ∧ (hasFollowers db un = true →
        (outboxDispatcher db domain un now ttl ur pr).threw = false →
        ∃ rows, rows.Perm ((syncPosts db un now ttl ur pr).db.posts.filter
              (fun p => p.username == un))
          ∧ List.Sorted createdAtDesc rows
          ∧ (outboxDispatcher db domain un now ttl ur pr).activities =
              rows.map (postToCreate domain un))
    ∧ (∀ p : PostRow,
        (postToCreate domain un p).«to» = publicAudience
        ∧ (postToCreate domain un p).actor = getActorUri domain un
        ∧ (postToCreate domain un p).object.content = p.title
        ∧ (postToCreate domain un p).object.published = p.createdAt
        ∧ (postToCreate domain un p).object.sensitive = (p.sensitive != 0)) := by
  refine ⟨fun hF => outbox_noFollowers hF, ?_, fun p => ⟨rfl, rfl, rfl, rfl, rfl⟩⟩
  intro hF hthrew
  rw [outbox_threw_eq db domain un now ttl ur pr hF] at hthrew
  refine ⟨List.insertionSort createdAtDesc
      ((syncPosts db un now ttl ur pr).db.posts.filter (fun p => p.username == un)),
    List.perm_insertionSort _ _, List.sorted_insertionSort _ _, ?_⟩
  rw [outbox_run hF hthrew]

/-- Witness for C5: the unfollowed store with stored posts yields the empty
outbox; the followed store yields a sorted permutation of its post rows; the
row→activity mapping targets the public audience. -/
theorem outbox_spec_witness :
    (outboxDispatcher dbPostsNoF "https://bridge.example" "alice" 1000 300
        UserFetch.notOk PostsFetch.notOk = ⟨dbPostsNoF, [], false⟩)
    ∧ (∃ rows, rows.Perm ((syncPosts dbPosts "alice" 1000 300 UserFetch.notOk
          PostsFetch.notOk).db.posts.filter (fun p => p.username == "alice"))
        ∧ List.Sorted createdAtDesc rows
        ∧ (outboxDispatcher dbPosts "https://bridge.example" "alice" 1000 300
            UserFetch.notOk PostsFetch.notOk).activities =
            rows.map (postToCreate "https://bridge.example" "alice"))
    ∧ (postToCreate "https://bridge.example" "alice" (postRowAt "b" 300)).«to» =
        publicAudience := by
  refine ⟨?_, ?_, ?_⟩
  · exact (outbox_spec dbPostsNoF "https://bridge.example" "alice" 1000 300
      UserFetch.notOk PostsFetch.notOk).1 (by decide)
  · exact (outbox_spec dbPosts "https://bridge.example" "alice" 1000 300
      UserFetch.notOk PostsFetch.notOk).2.1 (by decide) (by decide)
  · exact ((outbox_spec dbPosts "https://bridge.example" "alice" 1000 300
      UserFetch.notOk PostsFetch.notOk).2.2 (postRowAt "b" 300)).1

theorem followHandler_db (db : DB) (domain un actor : String)
    (fid : Option String) (uuid : String) :
    (followHandler db domain (some un) (some actor) fid uuid).db =
      followersInsertIgnore db un actor := by
  cases fid <;> rfl

theorem mem_followersInsertIgnore (db : DB) (un actor : String) :
    (un, actor) ∈ (followersInsertIgnore db un actor).followers := by
  unfold followersInsertIgnore
  by_cases h : (un, actor) ∈ db.followers
  · rw [if_pos h]; exact h
  · rw [if_neg h]; simp

theorem followersInsertIgnore_mem_eq {db : DB} {un actor : String}
    (h : (un, actor) ∈ db.followers) : followersInsertIgnore db un actor = db := by
  unfold followersInsertIgnore
  rw [if_pos h]

theorem hasFollowers_of_mem {db : DB} {un actor : String}
    (h : (un, actor) ∈ db.followers) : hasFollowers db un = true := by
  unfold hasFollowers
  simp only [decide_eq_true_eq, gt_iff_lt]
  rw [List.countP_pos_iff]
  exact ⟨(un, actor), h, by simp⟩

theorem countP_followersDelete (db : DB) (un actor : String) :
    (followersDelete db un actor).followers.countP
      (fun f => f.1 == un && f.2 == actor) = 0 := by
  unfold followersDelete
  rw [List.countP_eq_zero]
  intro a ha
  rw [List.mem_filter] at ha
  have h2 := ha.2
  simp only [Bool.not_eq_true'] at h2
  simp [h2]

theorem followersDelete_idem (db : DB) (un actor : String) :
    followersDelete (followersDelete db un actor) un actor =
      followersDelete db un actor := by
  unfold followersDelete
  simp

/-- C6: a Follow for `(un, actor)` followed by an Undo(Follow) for the same
pair leaves zero follower rows for the pair; between the two events
`hasFollowers un` is true; and both the insert and the delete are idempotent,
so repeating either event does not change the resulting store. -/
theorem follow_undo_round_trip (db : DB) (domain un actor : String)
    (fid fid₂ : Option String) (uuid uuid₂ : String) :
    ((undoHandler (followHandler db domain (some un) (some actor) fid uuid).db
        (some un) true (some actor)).followers.countP
        (fun f => f.1 == un && f.2 == actor) = 0)
    ∧ hasFollowers (followHandler db domain (some un) (some actor) fid uuid).db un = true
    ∧ (followHandler (followHandler db domain (some un) (some actor) fid uuid).db domain
        (some un) (some actor) fid₂ uuid₂).db =
      (followHandler db domain (some un) (some actor) fid uuid).db
    ∧ undoHandler (undoHandler (followHandler db domain (some un) (some actor) fid uuid).db
        (some un) true (some actor)) (some un) true (some actor) =
      undoHandler (followHandler db domain (some un) (some actor) fid uuid).db
        (some un) true (some actor) := by
  refine ⟨?_, ?_, ?_, ?_⟩
  · rw [followHandler_db]
    exact countP_followersDelete _ un actor
  · rw [followHandler_db]
    exact hasFollowers_of_mem (mem_followersInsertIgnore db un actor)
  · rw [followHandler_db, followHandler_db]
    exact followersInsertIgnore_mem_eq (mem_followersInsertIgnore db un actor)
  · rw [followHandler_db]
    exact followersDelete_idem _ un actor

/-- C7: a Follow whose remote actor identifier is unresolvable writes no
follower row and constructs no Accept — the store is returned unchanged. -/
theorem malformed_follow_drop (db : DB) (domain : String)
    (usernameOpt followIdOpt : Option String) (uuid : String) :
    followHandler db domain usernameOpt none followIdOpt uuid = ⟨db, none⟩ := by
  cases usernameOpt <;> rfl

/-- C8: a Follow with a resolvable actor but an unresolvable activity id
records the follower row (the insert precedes the id check) and then aborts
without constructing an Accept. -/
theorem follow_without_id_registers (db : DB) (domain un actor uuid : String) :
    followHandler db domain (some un) (some actor) none uuid =
      ⟨followersInsertIgnore db un actor, none⟩
    ∧ (un, actor) ∈ (followHandler db domain (some un) (some actor) none uuid).db.followers :=
  ⟨rfl, mem_followersInsertIgnore db un actor⟩

theorem syncPosts_db_notOk (db : DB) (un : String) (now ttl : Int) (ur : UserFetch) :
    (syncPosts db un now ttl ur PostsFetch.notOk).db = (ensureUser db un ur).db := by
  cases ht : (ensureUser db un ur).threw with
  | true => rw [syncPosts_threw PostsFetch.notOk ht]
  | false =>
    cases hu : (ensureUser db un ur).user with
    | none => rw [syncPosts_noUser PostsFetch.notOk ht hu]
    | some u =>
      cases hF : hasFollowers (ensureUser db un ur).db un with
      | false => rw [syncPosts_noFollowers PostsFetch.notOk ht hu hF]
      | true =>
        by_cases hT : now - u.lastPostSync < ttl
        · rw [syncPosts_ttl PostsFetch.notOk ht hu hF hT]
        · rw [syncPosts_fetch PostsFetch.notOk ht hu hF hT]

theorem syncPosts_db_fthrow (db : DB) (un : String) (now ttl : Int) (ur : UserFetch) :
    (syncPosts db un now ttl ur PostsFetch.fthrow).db = (ensureUser db un ur).db := by
  cases ht : (ensureUser db un ur).threw with
  | true => rw [syncPosts_threw PostsFetch.fthrow ht]
  | false =>
    cases hu : (ensureUser db un ur).user with
    | none => rw [syncPosts_noUser PostsFetch.fthrow ht hu]
    | some u =>
      cases hF : hasFollowers (ensureUser db un ur).db un with
      | false => rw [syncPosts_noFollowers PostsFetch.fthrow ht hu hF]
      | true =>
        by_cases hT : now - u.lastPostSync < ttl
        · rw [syncPosts_ttl PostsFetch.fthrow ht hu hF hT]
        · rw [syncPosts_fetch PostsFetch.fthrow ht hu hF hT]

/-- C9: when the posts fetch returns a non-success status (or the fetch
promise rejects), `syncPosts` leaves the posts table unchanged and every
pre-existing user row — in particular its `lastPostSync` — untouched, so a
retry under the same clock still passes every gate and fetches. -/
theorem failed_fetch_preserves (db : DB) (un : String) (now ttl : Int) (ur : UserFetch) :
    ((syncPosts db un now ttl ur PostsFetch.notOk).db.posts = db.posts
      ∧ (∀ x u, usersFind db x = some u →
          usersFind (syncPosts db un now ttl ur PostsFetch.notOk).db x = some u)
      ∧ ((syncPosts db un now ttl ur PostsFetch.notOk).fetched = true →
          ∀ (ur₂ : UserFetch) (pr₂ : PostsFetch),
            (syncPosts (syncPosts db un now ttl ur PostsFetch.notOk).db
              un now ttl ur₂ pr₂).fetched = true))
    ∧ ((syncPosts db un now ttl ur PostsFetch.fthrow).db.posts = db.posts
      ∧ (∀ x u, usersFind db x = some u →
          usersFind (syncPosts db un now ttl ur PostsFetch.fthrow).db x = some u)) := by
  refine ⟨⟨?_, ?_, ?_⟩, ⟨?_, ?_⟩⟩
  · rw [syncPosts_db_notOk]
    exact ensureUser_posts db un ur
  · intro x u h
    rw [syncPosts_db_notOk]
    exact usersFind_ensureUser_of_found ur h
  · intro hft ur₂ pr₂
    obtain ⟨u, hu, hF, hT⟩ :=
      (syncPosts_fetched_iff db un now ttl ur PostsFetch.notOk).mp hft
    apply (syncPosts_fetched_iff _ un now ttl ur₂ pr₂).mpr
    have hfind : usersFind (syncPosts db un now ttl ur PostsFetch.notOk).db un = some u := by
      rw [syncPosts_db_notOk]
      exact ensureUser_user_find hu
    have he₂ := ensureUser_cached hfind ur₂
    refine ⟨u, ?_, ?_, hT⟩
    · rw [he₂]
    · rw [he₂, syncPosts_db_notOk]
      exact hF
  · rw [syncPosts_db_fthrow]
    exact ensureUser_posts db un ur
  · intro x u h
    rw [syncPosts_db_fthrow]
    exact usersFind_ensureUser_of_found ur h

/-- Witness for C9: the followed store, a failing fetch at `now = 1000`: posts
unchanged, `alice`'s row unchanged, and the immediate retry fetches. -/
theorem failed_fetch_preserves_witness :
    ((syncPosts dbFollowed "alice" 1000 300 UserFetch.notOk PostsFetch.notOk).db.posts =
        dbFollowed.posts)
    ∧ (usersFind (syncPosts dbFollowed "alice" 1000 300 UserFetch.notOk
        PostsFetch.notOk).db "alice" = some aliceRow)
    ∧ ((syncPosts (syncPosts dbFollowed "alice" 1000 300 UserFetch.notOk
        PostsFetch.notOk).db "alice" 1000 300 UserFetch.notOk
        (PostsFetch.ok (some []))).fetched = true)
    ∧ (usersFind (syncPosts dbFollowed "alice" 1000 300 UserFetch.notOk
        PostsFetch.fthrow).db "alice" = some aliceRow) := by
  refine ⟨?_, ?_, ?_, ?_⟩
  · exact (failed_fetch_preserves dbFollowed "alice" 1000 300 UserFetch.notOk).1.1
  · exact (failed_fetch_preserves dbFollowed "alice" 1000 300 UserFetch.notOk).1.2.1
      "alice" aliceRow (by decide)
  · exact (failed_fetch_preserves dbFollowed "alice" 1000 300 UserFetch.notOk).1.2.2
      (by decide) UserFetch.notOk (PostsFetch.ok (some []))
  · exact (failed_fetch_preserves dbFollowed "alice" 1000 300 UserFetch.notOk).2.2
      "alice" aliceRow (by decide)

/-- C10: any row `ensureUser` returns carries the requested username; yet on a
successful lookup the insert is keyed by the *payload's* username, so when the
payload username differs from the requested one (and is itself free) the row
is persisted under the payload's username while `ensureUser` returns no user
for the requested one. -/
theorem ensureUser_payload_username (db : DB) (un : String) (ur : UserFetch)
    (ru : RemoteUser) :
    (∀ u, (ensureUser db un ur).user = some u → u.username = un)
    ∧ (usersFind db un = none → ur = UserFetch.ok (some ru) → ru.username ≠ un →
        usersFind db ru.username = none →
        ((ensureUser db un ur).user = none
          ∧ usersFind (ensureUser db un ur).db ru.username = some (freshUserRow ru))) := by
  refine ⟨?_, ?_⟩
  · intro u h
    exact usersFind_username (ensureUser_user_find h)
  · intro hf hur hne hfp
    subst hur
    have hcond : (usersFind db (freshUserRow ru).username).isSome = false := by
      have hx : usersFind db (freshUserRow ru).username = none := hfp
      rw [hx]; rfl
    have hins : usersInsert db (freshUserRow ru) =
        some { db with users := db.users ++ [freshUserRow ru] } := by
      unfold usersInsert
      simp [hcond]
    rw [ensureUser_none_insert hf hins]
    constructor
    · show usersFind { db with users := db.users ++ [freshUserRow ru] } un = none
      unfold usersFind
      rw [List.find?_append]
      unfold usersFind at hf
      rw [hf]
      simp [freshUserRow, hne]
    · show usersFind { db with users := db.users ++ [freshUserRow ru] } ru.username =
        some (freshUserRow ru)
      unfold usersFind
      rw [List.find?_append]
      unfold usersFind at hfp
      rw [hfp]
      simp [freshUserRow]

/-- Witness for C10: returned rows carry the requested username; provisioning
`alice` when the payload says `carol` persists a `carol` row and returns no
user for `alice`. -/
theorem ensureUser_payload_username_witness :
    aliceRow.username = "alice"
    ∧ ((ensureUser dbEmpty "alice" (UserFetch.ok (some remoteCarol))).user = none
        ∧ usersFind (ensureUser dbEmpty "alice"
            (UserFetch.ok (some remoteCarol))).db remoteCarol.username =
          some (freshUserRow remoteCarol)) := by
  refine ⟨?_, ?_⟩
  · exact (ensureUser_payload_username dbEmpty "alice" (UserFetch.ok (some remoteAlice))
      remoteCarol).1 aliceRow (by decide)
  · exact (ensureUser_payload_username dbEmpty "alice" (UserFetch.ok (some remoteCarol))
      remoteCarol).2 (by decide) rfl (by decide) (by decide)

end Bridge
